import Mathlib

/-!
# Verification of the A/B-testing statistical engine (`src/statistics.py`)

Shallow embedding of the five core operations of the repository's
statistical engine: `calculate_sample_size`, `check_srm`, `run_z_test`,
`bayesian_ab_test` and `revenue_impact`.

Modelling conventions:

* Python/NumPy floats are modelled as exact rationals (`ℚ`).  Places where
  NumPy produces a non-finite float (`nan` from `arcsin` outside `[-1, 1]`,
  `inf` from division by a zero expected count) are modelled explicitly:
  with `Option ℚ` (`none` = non-finite) inside `run_z_test` and
  `calculate_sample_size`, and with the three-valued `NpVal` inside
  `check_srm`, whose chi-square statistic the code can drive to `inf`.
* Python exceptions are modelled with `Except PyError`.  The source defines
  no exception class of its own and never raises explicitly; the only
  exceptions that can occur are Python's built-in `ZeroDivisionError`
  (float or int division by zero) and the `ValueError` family produced when
  a NaN reaches `int(np.ceil(...))` or the power solver.  The spec's error
  taxonomy (`InvalidParameterError`, `DegenerateInputError`,
  `UndefinedRatioError`) is carried in `PyError` so that claims about it
  are statable, but no code path produces those constructors — mirroring
  their absence from the source.
* The transcendental primitives supplied by NumPy/SciPy (`sqrt`, `arcsin`,
  the standard-normal quantile `ppf` and CDF, and the chi-square(1)
  survival function) have no exact rational counterpart; they are
  abstracted as a parameter record `StatsLib` of rational-valued functions.
  Their NumPy domain behaviour (NaN outside the domain) is imposed on top
  of the record by the `np*` wrappers, so the control flow of the source is
  preserved for every instantiation.  Theorems assume only properties the
  real functions have (monotonicity, pointwise inverse identities).
-/

/-- Exceptions that the embedded code can signal.  `zeroDivisionError` and
`valueError` are Python built-ins actually reachable in `src/statistics.py`;
the last three are the spec's taxonomy, present in the type so that claims
mentioning them can be stated, but never produced by the embedded code
(they do not exist in the repository). -/
inductive PyError where
  | zeroDivisionError
  | valueError
  | invalidParameterError
  | degenerateInputError
  | undefinedRatioError
deriving DecidableEq

/-- Rational-valued stand-ins for the transcendental library primitives used
by `src/statistics.py`: `np.sqrt`, `np.arcsin` (on its domain),
`scipy.stats.norm.ppf` (on `(0,1)`), the standard normal CDF, and the
survival function of the chi-square distribution with one degree of
freedom. -/
structure StatsLib where
  sqrtQ : ℚ → ℚ
  asinQ : ℚ → ℚ
  ppfQ : ℚ → ℚ
  cdfQ : ℚ → ℚ
  chi2sf1Q : ℚ → ℚ

/-- `np.sqrt`: NaN (`none`) on negative input, otherwise the library value. -/
def npSqrt (L : StatsLib) (x : ℚ) : Option ℚ :=
  if 0 ≤ x then some (L.sqrtQ x) else none

/-- `np.arcsin`: NaN (`none`) outside `[-1, 1]`, otherwise the library
value. -/
def npAsin (L : StatsLib) (x : ℚ) : Option ℚ :=
  if -1 ≤ x ∧ x ≤ 1 then some (L.asinQ x) else none

/-- `scipy.stats.norm.ppf`: finite only on the open interval `(0, 1)`
(`±inf` at the endpoints, NaN outside); every non-finite outcome is
`none`. -/
def npPpf (L : StatsLib) (q : ℚ) : Option ℚ :=
  if 0 < q ∧ q < 1 then some (L.ppfQ q) else none

/-- `statsmodels.stats.proportion.proportion_effectsize prop1 prop2`:
Cohen's h, `2*arcsin(sqrt prop1) - 2*arcsin(sqrt prop2)`, NaN-propagating
exactly as NumPy does when a proportion lies outside `[0, 1]`. -/
def proportionEffectsize (L : StatsLib) (p1 p2 : ℚ) : Option ℚ :=
  (npSqrt L p1).bind fun s1 =>
    (npAsin L s1).bind fun a1 =>
      (npSqrt L p2).bind fun s2 =>
        (npAsin L s2).bind fun a2 =>
          some (2 * a1 - 2 * a2)

/-- `NormalIndPower().solve_power(effect_size, alpha, power,
alternative="two-sided")` solving for `nobs1` (ratio 1): the two-sample
normal-power equation inverts in closed form to
`nobs1 = 2 * ((z_{1-alpha/2} + z_power) / effect_size)^2`
(the spec's §4.1 closed form, with statsmodels' two-independent-sample
scaling; the negligible far-tail term of the two-sided power, which the
numerical solver also absorbs, is omitted).  A zero effect size or a
quantile evaluated outside `(0,1)` makes the solve non-finite (`none`). -/
def solvePowerNobs (L : StatsLib) (es : ℚ) (alpha power : ℚ) : Option ℚ :=
  (npPpf L (1 - alpha / 2)).bind fun z =>
    (npPpf L power).bind fun zp =>
      if es = 0 then none else some (2 * ((z + zp) / es) ^ 2)

/-- `NormalIndPower().solve_power(effect_size, nobs1, alpha,
alternative="two-sided")` solving for `power`: direct evaluation of the
power of the two-sample z test,
`Phi(effect_size * sqrt(nobs1 / 2) - z_{1-alpha/2})`
(same convention as `solvePowerNobs`; far tail omitted). -/
def solvePowerPower (L : StatsLib) (es : ℚ) (nobs1 : ℚ) (alpha : ℚ) :
    Option ℚ :=
  (npPpf L (1 - alpha / 2)).bind fun z =>
    (npSqrt L (nobs1 / 2)).map fun s => L.cdfQ (es * s - z)

/-- Output record of `calculate_sample_size` (`src/statistics.py:36-46`). -/
structure SampleSizeResult where
  nPerGroup : ℤ
  nTotal : ℤ
  baselineRate : ℚ
  treatmentRate : ℚ
  mde : ℚ
  relativeMde : ℚ
  effectSize : ℚ
  alpha : ℚ
  power : ℚ
deriving DecidableEq

/-- `calculate_sample_size` (`src/statistics.py:11-46`).  The function
performs no input validation: it computes Cohen's h of
`(baseline_rate, baseline_rate + mde)`, solves the normal power equation
for `nobs1`, takes `int(np.ceil(n))` (line 35) and builds the result
dictionary, whose `relative_mde` entry divides by `baseline_rate`
(line 42).  A NaN effect size or a NaN solve reaches
`int(np.ceil(nan))`/the root solver and fails with Python's `ValueError`;
a zero `baseline_rate` fails with `ZeroDivisionError` at line 42. -/
def calculateSampleSize (L : StatsLib) (baselineRate mde alpha power : ℚ) :
    Except PyError SampleSizeResult :=
  let treatmentRate := baselineRate + mde
  match proportionEffectsize L baselineRate treatmentRate with
  | none => .error .valueError
  | some es =>
    match solvePowerNobs L |es| alpha power with
    | none => .error .valueError
    | some n =>
      if baselineRate = 0 then .error .zeroDivisionError
      else
        .ok ⟨⌈n⌉, ⌈n⌉ * 2, baselineRate, treatmentRate, mde,
          mde / baselineRate, es, alpha, power⟩

/-- NumPy double extended with the two non-finite values reachable in
`check_srm`'s chi-square computation: `+inf` (positive numerator over a
zero expected count) and `nan` (`0/0`). -/
inductive NpVal where
  | fin (q : ℚ)
  | inf
  | nan
deriving DecidableEq

/-- NumPy addition on `NpVal` (no `-inf` arises here): `nan` absorbs,
`inf + finite = inf`, `inf + inf = inf`. -/
def npAdd : NpVal → NpVal → NpVal
  | .fin a, .fin b => .fin (a + b)
  | .nan, _ => .nan
  | _, .nan => .nan
  | .inf, _ => .inf
  | _, .inf => .inf

/-- One term `(obs - exp)^2 / exp` of `scipy.stats.chisquare`, with NumPy
division-by-zero semantics: positive over zero is `inf`, `0/0` is `nan`. -/
def chisqTerm (obs exp : ℚ) : NpVal :=
  if exp = 0 then (if obs = exp then .nan else .inf)
  else .fin ((obs - exp) ^ 2 / exp)

/-- NumPy comparison `a < q` for a possibly non-finite left operand:
comparisons against `nan` are `False`, and `inf < q` is `False`. -/
def npLt (a : NpVal) (q : ℚ) : Bool :=
  match a with
  | .fin x => decide (x < q)
  | .inf => false
  | .nan => false

/-- `scipy.stats.chi2.sf` with one degree of freedom, lifted to `NpVal`:
`sf(inf) = 0`, `sf(nan) = nan`, finite values via the library function. -/
def npChi2sf (L : StatsLib) : NpVal → NpVal
  | .fin q => .fin (L.chi2sf1Q q)
  | .inf => .fin 0
  | .nan => .nan

/-- Python `int(...)` applied to a (finite) float: truncation toward
zero. -/
def pyInt (q : ℚ) : ℤ :=
  if 0 ≤ q then ⌊q⌋ else ⌈q⌉

/-- Output dictionary of `check_srm` (`src/statistics.py:67-78`).  Note the
`expected_control` / `expected_treatment` entries are `int(...)`-truncated
integers in the source (lines 76-77). -/
structure SRMResult where
  n_control : ℕ
  n_treatment : ℕ
  total : ℕ
  expected_split : ℚ
  actual_split_control : ℚ
  chi2 : NpVal
  p_value : NpVal
  srm_detected : Bool
  expected_control : ℤ
  expected_treatment : ℤ
deriving DecidableEq

/-- `check_srm` (`src/statistics.py:49-78`).  No guard exists for a
boundary `expected_split`: `scipy.stats.chisquare` divides by the zero
expected count and yields an `inf`/`nan` statistic instead of raising.
The only reachable exception is `ZeroDivisionError` from
`n_control / total` (line 72) when both group sizes are zero. -/
def checkSrm (L : StatsLib) (nControl nTreatment : ℕ)
    (expectedSplit alpha : ℚ) : Except PyError SRMResult :=
  let total := nControl + nTreatment
  let expectedControl : ℚ := (total : ℚ) * expectedSplit
  let expectedTreatment : ℚ := (total : ℚ) * (1 - expectedSplit)
  let chi2 := npAdd (chisqTerm (nControl : ℚ) expectedControl)
    (chisqTerm (nTreatment : ℚ) expectedTreatment)
  let pValue := npChi2sf L chi2
  if total = 0 then .error .zeroDivisionError
  else
    .ok ⟨nControl, nTreatment, total, expectedSplit,
      (nControl : ℚ) / (total : ℚ), chi2, pValue, npLt pValue alpha,
      pyInt expectedControl, pyInt expectedTreatment⟩

/-- Output dictionary of `run_z_test` (`src/statistics.py:118-130`).
Entries that NumPy can drive to NaN (degenerate pooled variance, rates
outside `[0,1]`) are `Option ℚ`. -/
structure ZTestResult where
  rate_control : ℚ
  rate_treatment : ℚ
  diff : ℚ
  relative_uplift : ℚ
  z_stat : Option ℚ
  p_value : Option ℚ
  ci_lower : Option ℚ
  ci_upper : Option ℚ
  significant : Bool
  alpha : ℚ
  achieved_power : Option ℚ
deriving DecidableEq

/-- `run_z_test` (`src/statistics.py:81-130`).  Rates are plain Python
float divisions, so a zero group size raises `ZeroDivisionError` at
line 92/93; the `relative_uplift` entry divides by `rate_control`
(line 122), raising `ZeroDivisionError` whenever the control rate is zero.
The pooled two-sided z statistic of `proportions_ztest`, the Wald interval,
and the retrospective power (`solve_power` with the observed effect size
and `nobs1 = n_control`, line 111-116) are computed before the dictionary
is built and raise nothing. -/
def runZTest (L : StatsLib) (nControl nTreatment convControl convTreatment : ℕ)
    (alpha : ℚ) : Except PyError ZTestResult :=
  if nControl = 0 then .error .zeroDivisionError
  else if nTreatment = 0 then .error .zeroDivisionError
  else
    let rateC : ℚ := (convControl : ℚ) / (nControl : ℚ)
    let rateT : ℚ := (convTreatment : ℚ) / (nTreatment : ℚ)
    let pPool : ℚ :=
      ((convTreatment : ℚ) + (convControl : ℚ)) /
        ((nTreatment : ℚ) + (nControl : ℚ))
    let varPool : ℚ :=
      pPool * (1 - pPool) * (1 / (nTreatment : ℚ) + 1 / (nControl : ℚ))
    let zStat : Option ℚ :=
      if varPool = 0 then none
      else (npSqrt L varPool).map fun s => (rateT - rateC) / s
    let pValue : Option ℚ := zStat.map fun z => 2 * L.cdfQ (-|z|)
    let se : Option ℚ :=
      npSqrt L (rateC * (1 - rateC) / (nControl : ℚ) +
        rateT * (1 - rateT) / (nTreatment : ℚ))
    let zCrit : Option ℚ := npPpf L (1 - alpha / 2)
    let diff : ℚ := rateT - rateC
    let ciLower : Option ℚ := do
      let s ← se
      let z ← zCrit
      pure (diff - z * s)
    let ciUpper : Option ℚ := do
      let s ← se
      let z ← zCrit
      pure (diff + z * s)
    let achievedPower : Option ℚ :=
      (proportionEffectsize L rateC rateT).bind fun es =>
        solvePowerPower L |es| (nControl : ℚ) alpha
    let significant : Bool :=
      match pValue with
      | some p => decide (p < alpha)
      | none => false
    if rateC = 0 then .error .zeroDivisionError
    else
      .ok ⟨rateC, rateT, diff, (rateT - rateC) / rateC * 100, zStat, pValue,
        ciLower, ciUpper, significant, alpha, achievedPower⟩

/-- Model of NumPy's `Generator` machinery as far as `bayesian_ab_test`
uses it: an abstract generator state, construction from an explicit seed or
from operating-system entropy (the seedless `default_rng()` path), and a
state-threading vectorised `Generator.beta(a, b, size)` draw. -/
structure RngModel where
  State : Type
  fromSeed : ℕ → State
  fromEntropy : ℕ → State
  betaDraws : ℚ → ℚ → ℕ → State → List ℚ × State

/-- `np.random.default_rng`: an explicit seed determines the state; only
the seedless call consults OS entropy. -/
def npDefaultRng (R : RngModel) (seed : Option ℕ) (entropy : ℕ) : R.State :=
  match seed with
  | some s => R.fromSeed s
  | none => R.fromEntropy entropy

/-- `np.mean` of a list of rationals, with the divisor `n_samples` fixed by
the array shape produced by `Generator.beta(..., n_samples)`. -/
def npMeanOver (nSamples : ℕ) (l : List ℚ) : ℚ :=
  l.sum / (nSamples : ℚ)

/-- Output dictionary of `bayesian_ab_test` (`src/statistics.py:165-177`). -/
structure BayesianResult where
  prob_treatment_better : ℚ
  prob_control_better : ℚ
  expected_loss_control : ℚ
  expected_loss_treatment : ℚ
  samples_control : List ℚ
  samples_treatment : List ℚ
  diff_samples : List ℚ
  ci_95_low : ℚ
  ci_95_high : ℚ
  posterior_mean_control : ℚ
  posterior_mean_treatment : ℚ
deriving DecidableEq

/-- `bayesian_ab_test` (`src/statistics.py:133-177`).  The generator is
created with the literal fixed seed 42 (line 145), so the ambient `entropy`
argument — the OS entropy a seedless generator would consume — is ignored.
The Beta posterior parameters are the conjugate `Beta(conv+1, n-conv+1)`
updates computed over ℤ; the control samples are drawn first, then the
treatment samples from the advanced generator state.  `np.percentile`'s
interpolating empirical percentile (used only for the credible interval) is
abstracted as the function argument `percentile`. -/
def bayesianAbTest (R : RngModel) (percentile : ℚ → List ℚ → ℚ)
    (entropy : ℕ) (convControl nControl convTreatment nTreatment : ℕ)
    (nSamples : ℕ) : BayesianResult :=
  let rng := npDefaultRng R (some 42) entropy
  let aC : ℤ := (convControl : ℤ) + 1
  let bC : ℤ := (nControl : ℤ) - (convControl : ℤ) + 1
  let aT : ℤ := (convTreatment : ℤ) + 1
  let bT : ℤ := (nTreatment : ℤ) - (convTreatment : ℤ) + 1
  let drawC := R.betaDraws (aC : ℚ) (bC : ℚ) nSamples rng
  let samplesC := drawC.1
  let drawT := R.betaDraws (aT : ℚ) (bT : ℚ) nSamples drawC.2
  let samplesT := drawT.1
  let paired := samplesT.zip samplesC
  let probTBetter : ℚ :=
    ((paired.countP fun pr => decide (pr.2 < pr.1)) : ℚ) / (nSamples : ℚ)
  let lossControl := npMeanOver nSamples (paired.map fun pr => max (pr.1 - pr.2) 0)
  let lossTreatment := npMeanOver nSamples (paired.map fun pr => max (pr.2 - pr.1) 0)
  let diffSamples := paired.map fun pr => pr.1 - pr.2
  ⟨probTBetter, 1 - probTBetter, lossControl, lossTreatment,
    samplesC, samplesT, diffSamples,
    percentile (5 / 2) diffSamples, percentile (195 / 2) diffSamples,
    (aC : ℚ) / ((aC : ℚ) + (bC : ℚ)), (aT : ℚ) / ((aT : ℚ) + (bT : ℚ))⟩

/-- Output dictionary of `revenue_impact` (`src/statistics.py:190-195`). -/
structure RevenueImpact where
  baseline_monthly : ℚ
  treatment_monthly : ℚ
  monthly_uplift : ℚ
  annual_uplift : ℚ
deriving DecidableEq

/-- `revenue_impact` (`src/statistics.py:180-195`): pure arithmetic. -/
def revenueImpact (rateControl rateTreatment avgOrderValue : ℚ)
    (monthlyVisitors : ℕ) : RevenueImpact :=
  let baselineRevenue := rateControl * (monthlyVisitors : ℚ) * avgOrderValue
  let treatmentRevenue := rateTreatment * (monthlyVisitors : ℚ) * avgOrderValue
  let uplift := treatmentRevenue - baselineRevenue
  ⟨baselineRevenue, treatmentRevenue, uplift, uplift * 12⟩

/-- Concrete `StatsLib` whose entries are simple computable functions; used
to instantiate witnesses.  Its square root is the linear map `x / 2`, which
is monotone and satisfies `sqrtQ 4 = 2`. -/
def halfLib : StatsLib :=
  ⟨fun x => x / 2, fun x => x, fun x => x, fun x => x, fun _ => 1⟩

/-- Concrete `StatsLib` whose entries are all the identity; used to
instantiate witnesses (its `sqrtQ (11/10) = 11/10 > 1`, matching the fact
that the real square root of `1.1` exceeds `1`). -/
def idLib : StatsLib :=
  ⟨fun x => x, fun x => x, fun x => x, fun x => x, fun _ => 1⟩

/-- Trivial generator model (unit state, empty draws); used only to state
concrete evaluations of fields of `bayesianAbTest` that do not depend on
the sampler. -/
def unitRng : RngModel :=
  ⟨Unit, fun _ => (), fun _ => (), fun _ _ _ s => ([], s)⟩

/-- Trivial percentile stand-in for concrete evaluations of fields that do
not depend on it. -/
def constPercentile : ℚ → List ℚ → ℚ := fun _ _ => 0

/-- Concrete `StatsLib` whose `asinQ` and `ppfQ` are monotone piecewise
linear maps (written as sums of nonnegative-slope ramps) interpolating the
true values of `arcsin (sqrt x)` at `x = 0.84, 0.9, 0.95` and of the
standard normal quantile at `0.8, 0.975` to six decimals:
`arcsin (sqrt 0.84) ~ 1.159279`, `arcsin (sqrt 0.9) ~ 1.249046`,
`arcsin (sqrt 0.95) ~ 1.345283`, `z_{0.8} ~ 0.841621`,
`z_{0.975} ~ 1.959964`.  Because `arcsin (sqrt x)` is steeper above `0.9`
than below it, these values exhibit the real asymmetry of Cohen's h around
a baseline of `0.9`. -/
def cxLib : StatsLib where
  sqrtQ := fun x => x
  asinQ := fun x =>
    28981975 / 21000000 * x
      + (89767 / 60000 - 28981975 / 21000000) * max (x - 21 / 25) 0
      + (96237 / 50000 - 89767 / 60000) * max (x - 9 / 10) 0
  ppfQ := fun x =>
    841621 / 800000 * x
      + (1118343 / 175000 - 841621 / 800000) * max (x - 4 / 5) 0
  cdfQ := fun x => x
  chi2sf1Q := fun _ => 1

lemma proportionEffectsize_some {L : StatsLib} {p1 p2 es : ℚ}
    (h : proportionEffectsize L p1 p2 = some es) :
    es = 2 * L.asinQ (L.sqrtQ p1) - 2 * L.asinQ (L.sqrtQ p2) := by
  by_cases h1 : 0 ≤ p1
  · by_cases h2 : -1 ≤ L.sqrtQ p1 ∧ L.sqrtQ p1 ≤ 1
    · by_cases h3 : 0 ≤ p2
      · by_cases h4 : -1 ≤ L.sqrtQ p2 ∧ L.sqrtQ p2 ≤ 1
        · simp [proportionEffectsize, npSqrt, npAsin, h1, h2, h3, h4] at h
          exact h.symm
        · simp [proportionEffectsize, npSqrt, npAsin, h1, h2, h3, h4] at h
      · simp [proportionEffectsize, npSqrt, npAsin, h1, h2, h3] at h
    · simp [proportionEffectsize, npSqrt, npAsin, h1, h2] at h
  · simp [proportionEffectsize, npSqrt, npAsin, h1] at h

lemma solvePowerNobs_some {L : StatsLib} {es a p N : ℚ}
    (h : solvePowerNobs L es a p = some N) :
    (0 < 1 - a / 2 ∧ 1 - a / 2 < 1) ∧ (0 < p ∧ p < 1) ∧ es ≠ 0 ∧
      N = 2 * ((L.ppfQ (1 - a / 2) + L.ppfQ p) / es) ^ 2 := by
  unfold solvePowerNobs npPpf at h
  rw [Option.bind_eq_some] at h
  obtain ⟨z, hz, h⟩ := h
  rw [Option.bind_eq_some] at h
  obtain ⟨zp, hzp, h⟩ := h
  split_ifs at hz with h1
  split_ifs at hzp with h2
  split_ifs at h with h3
  obtain rfl : L.ppfQ (1 - a / 2) = z := Option.some.inj hz
  obtain rfl : L.ppfQ p = zp := Option.some.inj hzp
  exact ⟨h1, h2, h3, (Option.some.inj h).symm⟩

lemma calculateSampleSize_ok {L : StatsLib} {b m a p : ℚ} {r : SampleSizeResult}
    (h : calculateSampleSize L b m a p = .ok r) :
    ∃ es N, proportionEffectsize L b (b + m) = some es ∧
      solvePowerNobs L |es| a p = some N ∧ b ≠ 0 ∧
      r = ⟨⌈N⌉, ⌈N⌉ * 2, b, b + m, m, m / b, es, a, p⟩ := by
  cases hes : proportionEffectsize L b (b + m) with
  | none => simp [calculateSampleSize, hes] at h
  | some es =>
    cases hN : solvePowerNobs L |es| a p with
    | none => simp [calculateSampleSize, hes, hN] at h
    | some N =>
      by_cases hb : b = 0
      · simp only [calculateSampleSize, hes, hN, if_pos hb] at h
        exact absurd h (by simp)
      · simp only [calculateSampleSize, hes, hN, if_neg hb] at h
        exact ⟨es, N, rfl, hN, hb, (Except.ok.inj h).symm⟩

/-- Claim C9: `revenue_impact` computes `baseline_monthly =
rate_control * monthly_visitors * avg_order_value`, the analogous
`treatment_monthly`, `monthly_uplift` as their difference and
`annual_uplift` as twelve times the monthly uplift; at
`(0.10, 0.12, 100, 100000)` the four values are exactly 1000000, 1200000,
200000 and 2400000. -/
theorem revenue_impact_correct :
    (∀ (rc rt aov : ℚ) (mv : ℕ),
      (revenueImpact rc rt aov mv).baseline_monthly = rc * (mv : ℚ) * aov ∧
      (revenueImpact rc rt aov mv).treatment_monthly = rt * (mv : ℚ) * aov ∧
      (revenueImpact rc rt aov mv).monthly_uplift =
        (revenueImpact rc rt aov mv).treatment_monthly -
          (revenueImpact rc rt aov mv).baseline_monthly ∧
      (revenueImpact rc rt aov mv).annual_uplift =
        12 * (revenueImpact rc rt aov mv).monthly_uplift) ∧
    revenueImpact (1 / 10) (3 / 25) 100 100000 =
      ⟨1000000, 1200000, 200000, 2400000⟩ := by
  constructor
  · intro rc rt aov mv
    refine ⟨rfl, rfl, rfl, ?_⟩
    show (rt * (mv : ℚ) * aov - rc * (mv : ℚ) * aov) * 12 =
      12 * (rt * (mv : ℚ) * aov - rc * (mv : ℚ) * aov)
    ring
  · norm_num [revenueImpact]

/-- Claim C3: `bayesian_ab_test` is deterministic — because the generator
is created with the literal seed 42 on every call, the output is
independent of the ambient entropy a seedless generator would consume, so
two calls with identical inputs return identical output records
(probabilities, losses, credible bounds, sample sequences, posterior
means). -/
theorem bayesian_ab_test_deterministic :
    ∀ (R : RngModel) (percentile : ℚ → List ℚ → ℚ) (e1 e2 : ℕ)
      (cc nc ct nt ns : ℕ),
      bayesianAbTest R percentile e1 cc nc ct nt ns =
        bayesianAbTest R percentile e2 cc nc ct nt ns :=
  fun _ _ _ _ _ _ _ _ _ => rfl

/-- Claim C10: the `samples_control` sequence depends only on
`(conv_control, n_control, n_samples)` — the generator is freshly seeded
with 42 and the control draws happen before the treatment draws, so two
calls differing only in the treatment counts (and in ambient entropy)
return the same `samples_control`. -/
theorem bayesian_samples_control_independent_of_treatment :
    ∀ (R : RngModel) (percentile : ℚ → List ℚ → ℚ) (e1 e2 : ℕ)
      (cc nc ct1 nt1 ct2 nt2 ns : ℕ),
      (bayesianAbTest R percentile e1 cc nc ct1 nt1 ns).samples_control =
        (bayesianAbTest R percentile e2 cc nc ct2 nt2 ns).samples_control :=
  fun _ _ _ _ _ _ _ _ _ _ _ => rfl

/-- Claim C4 (counterexample): at `(520, 5000, 640, 5000)` the posterior
means returned by `bayesian_ab_test` are `(520+1)/5002 = 521/5002` and
`(640+1)/5002 = 641/5002`, not the claimed `520/5002` and `640/5002` — the
claim's particular values drop the `+1` of the `Beta(conv+1, n-conv+1)`
posterior's first parameter. -/
theorem bayesian_posterior_mean_spec_value_false :
    (bayesianAbTest unitRng constPercentile 0 520 5000 640 5000
        100000).posterior_mean_control ≠ 520 / 5002 ∧
    (bayesianAbTest unitRng constPercentile 0 520 5000 640 5000
        100000).posterior_mean_treatment ≠ 640 / 5002 := by
  constructor <;> norm_num [bayesianAbTest, unitRng, constPercentile]

/-- Claim C4 (amended): `posterior_mean_g` equals `a_g / (a_g + b_g)` for
the `Beta(conv_g + 1, n_g - conv_g + 1)` posterior, i.e.
`(conv_g + 1) / (n_g + 2)`; at `(520, 5000, 640, 5000)` the values are
`521/5002 ≈ 0.10416` and `641/5002 ≈ 0.12815`, the latter exceeding the
former. -/
theorem bayesian_posterior_mean_correct :
    (∀ (R : RngModel) (percentile : ℚ → List ℚ → ℚ) (e cc nc ct nt ns : ℕ),
      (bayesianAbTest R percentile e cc nc ct nt ns).posterior_mean_control =
        ((cc : ℚ) + 1) / ((nc : ℚ) + 2) ∧
      (bayesianAbTest R percentile e cc nc ct nt ns).posterior_mean_treatment =
        ((ct : ℚ) + 1) / ((nt : ℚ) + 2)) ∧
    (bayesianAbTest unitRng constPercentile 0 520 5000 640 5000
        100000).posterior_mean_control = 521 / 5002 ∧
    (bayesianAbTest unitRng constPercentile 0 520 5000 640 5000
        100000).posterior_mean_treatment = 641 / 5002 ∧
    (521 / 5002 : ℚ) < 641 / 5002 := by
  refine ⟨fun R percentile e cc nc ct nt ns => ⟨?_, ?_⟩,
    by norm_num [bayesianAbTest, unitRng, constPercentile],
    by norm_num [bayesianAbTest, unitRng, constPercentile],
    by norm_num⟩
  · simp only [bayesianAbTest]
    push_cast
    congr 1
    ring
  · simp only [bayesianAbTest]
    push_cast
    congr 1
    ring

/-- Claim C1 (code bug): `calculate_sample_size` never fails with
`InvalidParameterError` — no such class exists in the repository and the
function performs no validation.  On the spec's own instance
`(0.5, 0.6, 0.05, 0.8)` the treatment rate `1.1` drives `arcsin(sqrt 1.1)`
to NaN (the real `sqrt 1.1` exceeds 1, the hypothesis of the second
conjunct), and the NaN propagates to the power solve and
`int(np.ceil(...))`, which fail with `ValueError` instead. -/
theorem calculate_sample_size_no_invalid_parameter_error :
    (∀ (L : StatsLib) (b m a p : ℚ),
      calculateSampleSize L b m a p ≠ .error .invalidParameterError) ∧
    (∀ L : StatsLib, 1 < L.sqrtQ (11 / 10) →
      calculateSampleSize L (1 / 2) (3 / 5) (1 / 20) (4 / 5) =
        .error .valueError) := by
  constructor
  · intro L b m a p h
    cases hes : proportionEffectsize L b (b + m) with
    | none => simp [calculateSampleSize, hes] at h
    | some es =>
      cases hN : solvePowerNobs L |es| a p with
      | none => simp [calculateSampleSize, hes, hN] at h
      | some N =>
        by_cases hb : b = 0
        · simp only [calculateSampleSize, hes, hN, if_pos hb] at h
          exact absurd h (by simp)
        · simp only [calculateSampleSize, hes, hN, if_neg hb] at h
          exact absurd h (by simp)
  · intro L hgt
    have h11 : ¬(-1 ≤ L.sqrtQ (11 / 10) ∧ L.sqrtQ (11 / 10) ≤ 1) :=
      fun hc => absurd hc.2 (by linarith)
    have hnone : npAsin L (L.sqrtQ (11 / 10)) = none := by
      simp [npAsin, h11]
    have e1 : npSqrt L (1 / 2) = some (L.sqrtQ (1 / 2)) := by
      norm_num [npSqrt]
    have e2 : npSqrt L (1 / 2 + 3 / 5) = some (L.sqrtQ (11 / 10)) := by
      norm_num [npSqrt]
    have hpe : proportionEffectsize L (1 / 2) (1 / 2 + 3 / 5) = none := by
      unfold proportionEffectsize
      rw [e1, Option.some_bind]
      cases hA : npAsin L (L.sqrtQ (1 / 2)) with
      | none => rw [Option.none_bind]
      | some a1 =>
        rw [Option.some_bind, e2, Option.some_bind, hnone, Option.none_bind]
    simp only [calculateSampleSize, hpe]

/-- Claim C1 witness: the identity stand-in library has
`sqrtQ (11/10) = 11/10 > 1` (as the real square root does), and on it the
spec's instance fails with `ValueError`, not `InvalidParameterError`. -/
theorem calculate_sample_size_no_invalid_parameter_error_witness :
    (1 : ℚ) < idLib.sqrtQ (11 / 10) ∧
    calculateSampleSize idLib (1 / 2) (3 / 5) (1 / 20) (4 / 5) =
      .error .valueError :=
  ⟨by norm_num [idLib],
    calculate_sample_size_no_invalid_parameter_error.2 idLib
      (by norm_num [idLib])⟩

/-- Claim C6 (counterexample): at `run_z_test(10, 10, 0, 5, 0.05)` the
zero control rate makes the code raise Python's built-in
`ZeroDivisionError` at the `relative_uplift` division, which is not the
spec's `UndefinedRatioError` (and no infinite uplift is reported). -/
theorem run_z_test_zero_control_not_undefined_ratio_error :
    runZTest halfLib 10 10 0 5 (1 / 20) = .error .zeroDivisionError ∧
    (Except.error PyError.zeroDivisionError : Except PyError ZTestResult) ≠
      .error .undefinedRatioError := by
  constructor
  · norm_num [runZTest]
  · simp

/-- Claim C6 (amended): for every call of `run_z_test` with
`conv_control = 0`, the operation fails with Python's built-in
`ZeroDivisionError` — from the rate computation when a group size is zero,
otherwise from the unguarded `relative_uplift` division by the zero
control rate.  The division by zero is not silently propagated, but the
error is not `UndefinedRatioError` and no infinite value is reported. -/
theorem run_z_test_zero_control_zero_division :
    ∀ (L : StatsLib) (nControl nTreatment convTreatment : ℕ) (alpha : ℚ),
      runZTest L nControl nTreatment 0 convTreatment alpha =
        .error .zeroDivisionError := by
  intro L nControl nTreatment convTreatment alpha
  by_cases h1 : nControl = 0
  · simp [runZTest, h1]
  · by_cases h2 : nTreatment = 0
    · simp [runZTest, h1, h2]
    · simp [runZTest, h1, h2]

/-- Claim C7 (code bug): `check_srm` has no guard for a boundary
`expected_split` and never fails with `DegenerateInputError` (no such
class exists in the repository).  At `check_srm(10, 20, 0.0, 0.05)` the
zero expected control count makes `scipy.stats.chisquare` divide by zero:
the code returns an `SRMResult` with `chi2 = inf`, `p_value = 0` and
`srm_detected = true` instead of failing. -/
theorem check_srm_degenerate_split_returns_result :
    (∀ (L : StatsLib) (nc nt : ℕ) (split alpha : ℚ),
      checkSrm L nc nt split alpha ≠ .error .degenerateInputError) ∧
    checkSrm halfLib 10 20 0 (1 / 20) =
      .ok ⟨10, 20, 30, 0, 1 / 3, .inf, .fin 0, true, 0, 30⟩ := by
  constructor
  · intro L nc nt split alpha h
    by_cases ht : nc + nt = 0
    · simp only [checkSrm, if_pos ht] at h
      exact absurd h (by simp)
    · simp only [checkSrm, if_neg ht] at h
      exact absurd h (by simp)
  · have h1 : chisqTerm ((10 : ℕ) : ℚ) (((10 + 20 : ℕ) : ℚ) * 0) = .inf := by
      norm_num [chisqTerm]
    have h2 : chisqTerm ((20 : ℕ) : ℚ) (((10 + 20 : ℕ) : ℚ) * (1 - 0)) =
        .fin (10 / 3) := by
      norm_num [chisqTerm]
    simp only [checkSrm, h1, h2, npAdd, npChi2sf]
    norm_num [npLt, pyInt]

/-- Claim C8 (counterexample): `check_srm(3, 4, 0.5, 0.05)` reports
`expected_control = int(3.5) = 3`, not the exact real `3.5` the claim
asserts — the source truncates the expected counts with `int(...)` at
lines 76-77. -/
theorem check_srm_expected_counts_truncated_counterexample :
    ∃ r : SRMResult, checkSrm halfLib 3 4 (1 / 2) (1 / 20) = .ok r ∧
      (r.expected_control : ℚ) ≠ (((3 + 4 : ℕ) : ℚ)) * (1 / 2) := by
  refine ⟨⟨3, 4, 7, 1 / 2, 3 / 7, .fin (1 / 7), .fin 1, false, 3, 3⟩, ?_, by norm_num⟩
  have h1 : chisqTerm ((3 : ℕ) : ℚ) (((3 + 4 : ℕ) : ℚ) * (1 / 2)) =
      .fin (1 / 14) := by
    norm_num [chisqTerm]
  have h2 : chisqTerm ((4 : ℕ) : ℚ) (((3 + 4 : ℕ) : ℚ) * (1 - 1 / 2)) =
      .fin (1 / 14) := by
    norm_num [chisqTerm]
  simp only [checkSrm, h1, h2, npAdd, npChi2sf]
  norm_num [npLt, pyInt, halfLib]

/-- Claim C8 (amended): the `expected_control` and `expected_treatment`
fields of every returned `SRMResult` are the `int(...)`-truncated values
`int(total * expected_split)` and `int(total * (1 - expected_split))`
(truncation toward zero), not the exact reals; e.g. `check_srm(3, 4, 0.5,
0.05)` reports 3 and 3 where the exact expected counts are 3.5 each. -/
theorem check_srm_expected_counts_truncation :
    ∀ (L : StatsLib) (nc nt : ℕ) (split alpha : ℚ) (r : SRMResult),
      checkSrm L nc nt split alpha = .ok r →
      r.expected_control = pyInt (((nc + nt : ℕ) : ℚ) * split) ∧
      r.expected_treatment = pyInt (((nc + nt : ℕ) : ℚ) * (1 - split)) := by
  intro L nc nt split alpha r h
  by_cases ht : nc + nt = 0
  · simp only [checkSrm, if_pos ht] at h
    exact absurd h (by simp)
  · simp only [checkSrm, if_neg ht] at h
    obtain rfl := Except.ok.inj h
    exact ⟨rfl, rfl⟩

/-- Claim C8 witness: instantiating the amended theorem at
`check_srm(3, 4, 0.5, 0.05)` — both reported expected counts are the
truncation of 3.5, namely 3. -/
theorem check_srm_expected_counts_truncation_witness :
    (SRMResult.mk 3 4 7 (1 / 2) (3 / 7) (.fin (1 / 7)) (.fin 1) false 3
        3).expected_control = pyInt (((3 + 4 : ℕ) : ℚ) * (1 / 2)) ∧
    (SRMResult.mk 3 4 7 (1 / 2) (3 / 7) (.fin (1 / 7)) (.fin 1) false 3
        3).expected_treatment = pyInt (((3 + 4 : ℕ) : ℚ) * (1 - 1 / 2)) := by
  refine check_srm_expected_counts_truncation halfLib 3 4 (1 / 2) (1 / 20) _ ?_
  have h1 : chisqTerm ((3 : ℕ) : ℚ) (((3 + 4 : ℕ) : ℚ) * (1 / 2)) =
      .fin (1 / 14) := by
    norm_num [chisqTerm]
  have h2 : chisqTerm ((4 : ℕ) : ℚ) (((3 + 4 : ℕ) : ℚ) * (1 - 1 / 2)) =
      .fin (1 / 14) := by
    norm_num [chisqTerm]
  simp only [checkSrm, h1, h2, npAdd, npChi2sf]
  norm_num [npLt, pyInt, halfLib]

lemma abs_es_pos_le {u v w : ℚ} (huv : u < v) (hvw : v ≤ w) :
    0 < |2 * u - 2 * v| ∧ |2 * u - 2 * v| ≤ |2 * u - 2 * w| := by
  have h1 : 2 * u - 2 * v < 0 := by linarith
  have h2 : 2 * u - 2 * w < 0 := by linarith
  rw [abs_of_neg h1, abs_of_neg h2]
  constructor <;> linarith

lemma abs_es_pos_le' {u v w : ℚ} (huv : v < u) (hvw : w ≤ v) :
    0 < |2 * u - 2 * v| ∧ |2 * u - 2 * v| ≤ |2 * u - 2 * w| := by
  have h1 : 0 < 2 * u - 2 * v := by linarith
  have h2 : 0 < 2 * u - 2 * w := by linarith
  rw [abs_of_pos h1, abs_of_pos h2]
  constructor <;> linarith

lemma solveN_anti {s e1 e2 : ℚ} (hs : 0 ≤ s) (he1 : 0 < e1) (hle : e1 ≤ e2) :
    2 * (s / e2) ^ 2 ≤ 2 * (s / e1) ^ 2 := by
  have he2 : 0 < e2 := lt_of_lt_of_le he1 hle
  gcongr

lemma solveN_mono {s1 s2 e : ℚ} (hs1 : 0 ≤ s1) (hle : s1 ≤ s2) (he : 0 < e) :
    2 * (s1 / e) ^ 2 ≤ 2 * (s2 / e) ^ 2 := by
  gcongr

/-- Claim C5 (amended): for valid parameters, `n_per_group` is
monotonically non-increasing as `|mde|` increases among `mde` of the same
sign, non-decreasing as `power` increases, and non-decreasing as `alpha`
decreases (the latter two whenever the quantile sum `z_{1-alpha/2} +
z_power` is nonnegative, as it is for any sensible power target).
Monotonicity in `|mde|` across a sign change of `mde` fails (see the
counterexample), because the arcsine effect size is asymmetric around the
baseline rate. -/
theorem sample_size_monotonicity_amended (L : StatsLib)
    (hg : StrictMonoOn (fun x => L.asinQ (L.sqrtQ x)) (Set.Icc (0 : ℚ) 1))
    (hppf : MonotoneOn L.ppfQ (Set.Ioo (0 : ℚ) 1)) :
    (∀ b m1 m2 a p r1 r2,
      0 ≤ b → b ≤ 1 → 0 ≤ b + m1 → b + m1 ≤ 1 → 0 ≤ b + m2 → b + m2 ≤ 1 →
      ((0 < m1 ∧ m1 ≤ m2) ∨ (m2 ≤ m1 ∧ m1 < 0)) →
      0 ≤ L.ppfQ (1 - a / 2) + L.ppfQ p →
      calculateSampleSize L b m1 a p = .ok r1 →
      calculateSampleSize L b m2 a p = .ok r2 →
      r2.nPerGroup ≤ r1.nPerGroup) ∧
    (∀ b m a p1 p2 r1 r2,
      p1 ≤ p2 →
      0 ≤ L.ppfQ (1 - a / 2) + L.ppfQ p1 →
      calculateSampleSize L b m a p1 = .ok r1 →
      calculateSampleSize L b m a p2 = .ok r2 →
      r1.nPerGroup ≤ r2.nPerGroup) ∧
    (∀ b m a1 a2 p r1 r2,
      a2 ≤ a1 →
      0 ≤ L.ppfQ (1 - a1 / 2) + L.ppfQ p →
      calculateSampleSize L b m a1 p = .ok r1 →
      calculateSampleSize L b m a2 p = .ok r2 →
      r1.nPerGroup ≤ r2.nPerGroup) := by
  refine ⟨?_, ?_, ?_⟩
  · intro b m1 m2 a p r1 r2 hb0 hb1 hm1a hm1b hm2a hm2b hsign hz h1 h2
    obtain ⟨es1, N1, hes1, hN1, hbne, hr1⟩ := calculateSampleSize_ok h1
    obtain ⟨es2, N2, hes2, hN2, -, hr2⟩ := calculateSampleSize_ok h2
    obtain ⟨-, -, hne1, hv1⟩ := solvePowerNobs_some hN1
    obtain ⟨-, -, -, hv2⟩ := solvePowerNobs_some hN2
    have hesv1 := proportionEffectsize_some hes1
    have hesv2 := proportionEffectsize_some hes2
    have hmb : b ∈ Set.Icc (0 : ℚ) 1 := ⟨hb0, hb1⟩
    have hm1 : b + m1 ∈ Set.Icc (0 : ℚ) 1 := ⟨hm1a, hm1b⟩
    have hm2 : b + m2 ∈ Set.Icc (0 : ℚ) 1 := ⟨hm2a, hm2b⟩
    have key : 0 < |es1| ∧ |es1| ≤ |es2| := by
      rcases hsign with ⟨hp, hle⟩ | ⟨hle, hn⟩
      · have hlt := hg hmb hm1 (by linarith)
        have hle' := hg.monotoneOn hm1 hm2 (by linarith)
        dsimp only at hlt hle'
        rw [hesv1, hesv2]
        exact abs_es_pos_le hlt hle'
      · have hlt := hg hm1 hmb (by linarith)
        have hle' := hg.monotoneOn hm2 hm1 (by linarith)
        dsimp only at hlt hle'
        rw [hesv1, hesv2]
        exact abs_es_pos_le' hlt hle'
    have hNle : N2 ≤ N1 := by
      rw [hv1, hv2]
      exact solveN_anti hz key.1 key.2
    subst hr1
    subst hr2
    exact Int.ceil_le_ceil hNle
  · intro b m a p1 p2 r1 r2 hple hz h1 h2
    obtain ⟨es1, N1, hes1, hN1, -, hr1⟩ := calculateSampleSize_ok h1
    obtain ⟨es2, N2, hes2, hN2, -, hr2⟩ := calculateSampleSize_ok h2
    obtain rfl : es1 = es2 := by
      rw [hes1] at hes2
      exact Option.some.inj hes2
    obtain ⟨-, hp1, hne, hv1⟩ := solvePowerNobs_some hN1
    obtain ⟨-, hp2, -, hv2⟩ := solvePowerNobs_some hN2
    have hzle : L.ppfQ p1 ≤ L.ppfQ p2 :=
      hppf ⟨hp1.1, hp1.2⟩ ⟨hp2.1, hp2.2⟩ hple
    have hNle : N1 ≤ N2 := by
      rw [hv1, hv2]
      exact solveN_mono hz (by linarith)
        (lt_of_le_of_ne (abs_nonneg es1) (Ne.symm hne))
    subst hr1
    subst hr2
    exact Int.ceil_le_ceil hNle
  · intro b m a1 a2 p r1 r2 hale hz h1 h2
    obtain ⟨es1, N1, hes1, hN1, -, hr1⟩ := calculateSampleSize_ok h1
    obtain ⟨es2, N2, hes2, hN2, -, hr2⟩ := calculateSampleSize_ok h2
    obtain rfl : es1 = es2 := by
      rw [hes1] at hes2
      exact Option.some.inj hes2
    obtain ⟨ha1, -, hne, hv1⟩ := solvePowerNobs_some hN1
    obtain ⟨ha2, -, -, hv2⟩ := solvePowerNobs_some hN2
    have hzle : L.ppfQ (1 - a1 / 2) ≤ L.ppfQ (1 - a2 / 2) :=
      hppf ⟨ha1.1, ha1.2⟩ ⟨ha2.1, ha2.2⟩ (by linarith)
    have hNle : N1 ≤ N2 := by
      rw [hv1, hv2]
      exact solveN_mono hz (by linarith)
        (lt_of_le_of_ne (abs_nonneg es1) (Ne.symm hne))
    subst hr1
    subst hr2
    exact Int.ceil_le_ceil hNle

/-- Claim C5 witness: instantiating the same-sign mde monotonicity at the
identity stand-in library with baseline 1/4, mde 1/4 vs 1/2, alpha 1/2,
power 4/5 — the required n per group drops from 20 to 5. -/
theorem sample_size_monotonicity_amended_witness :
    (⟨5, 10, 1 / 4, 3 / 4, 1 / 2, 2, -1, 1 / 2, 4 / 5⟩ :
        SampleSizeResult).nPerGroup ≤
      (⟨20, 40, 1 / 4, 1 / 2, 1 / 4, 1, -(1 / 2), 1 / 2, 4 / 5⟩ :
        SampleSizeResult).nPerGroup := by
  have hes1 : proportionEffectsize idLib (1 / 4) (1 / 4 + 1 / 4) =
      some (-(1 / 2)) := by
    norm_num [proportionEffectsize, npSqrt, npAsin, idLib]
  have habs1 : |(-(1 / 2) : ℚ)| = 1 / 2 := by
    rw [abs_neg]
    exact abs_of_pos (by norm_num)
  have hN1 : solvePowerNobs idLib |(-(1 / 2) : ℚ)| (1 / 2) (4 / 5) =
      some (961 / 50) := by
    rw [habs1]
    norm_num [solvePowerNobs, npPpf, idLib]
  have hc1 : ⌈(961 / 50 : ℚ)⌉ = 20 := by
    rw [Int.ceil_eq_iff]
    constructor <;> norm_num
  have hes2 : proportionEffectsize idLib (1 / 4) (1 / 4 + 1 / 2) =
      some (-1) := by
    norm_num [proportionEffectsize, npSqrt, npAsin, idLib]
  have habs2 : |(-1 : ℚ)| = 1 := by norm_num
  have hN2 : solvePowerNobs idLib |(-1 : ℚ)| (1 / 2) (4 / 5) =
      some (961 / 200) := by
    rw [habs2]
    norm_num [solvePowerNobs, npPpf, idLib]
  have hc2 : ⌈(961 / 200 : ℚ)⌉ = 5 := by
    rw [Int.ceil_eq_iff]
    constructor <;> norm_num
  refine (sample_size_monotonicity_amended idLib (fun x _ y _ h => h)
    (fun x _ y _ h => h)).1 (1 / 4) (1 / 4) (1 / 2) (1 / 2) (4 / 5)
    ⟨20, 40, 1 / 4, 1 / 2, 1 / 4, 1, -(1 / 2), 1 / 2, 4 / 5⟩
    ⟨5, 10, 1 / 4, 3 / 4, 1 / 2, 2, -1, 1 / 2, 4 / 5⟩
    (by norm_num) (by norm_num) (by norm_num) (by norm_num) (by norm_num)
    (by norm_num) (Or.inl ⟨by norm_num, by norm_num⟩) (by norm_num [idLib])
    ?_ ?_
  · simp only [calculateSampleSize, hes1, hN1,
      if_neg (show ¬(1 / 4 : ℚ) = 0 by norm_num), hc1]
    norm_num
  · simp only [calculateSampleSize, hes2, hN2,
      if_neg (show ¬(1 / 4 : ℚ) = 0 by norm_num), hc2]
    norm_num

lemma ramp_monotone (c b : ℚ) (hc : 0 ≤ c) :
    Monotone fun x : ℚ => c * max (x - b) 0 := by
  intro x y hxy
  dsimp only
  exact mul_le_mul_of_nonneg_left (max_le_max (by linarith) le_rfl) hc

lemma cxLib_asin_strictMono : StrictMono cxLib.asinQ := by
  intro x y hxy
  have h1 : 28981975 / 21000000 * x < 28981975 / 21000000 * y :=
    (mul_lt_mul_left (by norm_num)).mpr hxy
  have h2 := ramp_monotone (89767 / 60000 - 28981975 / 21000000) (21 / 25)
    (by norm_num) hxy.le
  have h3 := ramp_monotone (96237 / 50000 - 89767 / 60000) (9 / 10)
    (by norm_num) hxy.le
  dsimp only at h2 h3
  show cxLib.asinQ x < cxLib.asinQ y
  simp only [cxLib]
  linarith

lemma cxLib_ppf_monotone : Monotone cxLib.ppfQ := by
  intro x y hxy
  have h1 : 841621 / 800000 * x ≤ 841621 / 800000 * y :=
    mul_le_mul_of_nonneg_left hxy (by norm_num)
  have h2 := ramp_monotone (1118343 / 175000 - 841621 / 800000) (4 / 5)
    (by norm_num) hxy
  dsimp only at h2
  show cxLib.ppfQ x ≤ cxLib.ppfQ y
  simp only [cxLib]
  linarith

/-- Claim C5 (counterexample): with the monotone stand-in library `cxLib`
(which matches the true values of `arcsin (sqrt x)` and the normal
quantile at every point this computation touches to six decimals),
`calculate_sample_size(0.9, 0.05, 0.05, 0.8)` returns `n_per_group = 424`
while `calculate_sample_size(0.9, -0.06, 0.05, 0.8)` returns 488: `|mde|`
grew from 0.05 to 0.06 yet `n_per_group` increased, refuting "n_per_group
is monotonically non-increasing as |mde| increases with the other
parameters fixed".  (The same numbers arise with the real `arcsin`,
`sqrt` and normal quantile: Cohen's h is 0.192474 for mde +0.05 but only
0.179534 for mde -0.06, because the arcsine transform is steeper above
0.9.) -/
theorem sample_size_not_monotone_in_abs_mde :
    StrictMonoOn (fun x => cxLib.asinQ (cxLib.sqrtQ x)) (Set.Icc (0 : ℚ) 1) ∧
    MonotoneOn cxLib.ppfQ (Set.Ioo (0 : ℚ) 1) ∧
    |(1 / 20 : ℚ)| ≤ |(-(3 / 50) : ℚ)| ∧
    0 ≤ cxLib.ppfQ (1 - (1 / 20) / 2) + cxLib.ppfQ (4 / 5) ∧
    calculateSampleSize cxLib (9 / 10) (1 / 20) (1 / 20) (4 / 5) =
      .ok ⟨424, 848, 9 / 10, 19 / 20, 1 / 20, 1 / 18, -(96237 / 500000),
        1 / 20, 4 / 5⟩ ∧
    calculateSampleSize cxLib (9 / 10) (-(3 / 50)) (1 / 20) (4 / 5) =
      .ok ⟨488, 976, 9 / 10, 21 / 25, -(3 / 50), -(1 / 15), 89767 / 500000,
        1 / 20, 4 / 5⟩ ∧
    (424 : ℤ) < 488 := by
  have hes1 : proportionEffectsize cxLib (9 / 10) (9 / 10 + 1 / 20) =
      some (-(96237 / 500000)) := by
    norm_num [proportionEffectsize, npSqrt, npAsin, cxLib, max_def]
  have habs1 : |(-(96237 / 500000) : ℚ)| = 96237 / 500000 := by
    rw [abs_neg]
    exact abs_of_pos (by norm_num)
  have hN1 : solvePowerNobs cxLib |(-(96237 / 500000) : ℚ)| (1 / 20) (4 / 5) =
      some (15697757024450 / 37046240676) := by
    rw [habs1]
    norm_num [solvePowerNobs, npPpf, cxLib, max_def]
  have hc1 : ⌈(15697757024450 / 37046240676 : ℚ)⌉ = 424 := by
    rw [Int.ceil_eq_iff]
    constructor <;> norm_num
  have hes2 : proportionEffectsize cxLib (9 / 10) (9 / 10 + -(3 / 50)) =
      some (89767 / 500000) := by
    norm_num [proportionEffectsize, npSqrt, npAsin, cxLib, max_def]
  have habs2 : |(89767 / 500000 : ℚ)| = 89767 / 500000 :=
    abs_of_pos (by norm_num)
  have hN2 : solvePowerNobs cxLib |(89767 / 500000 : ℚ)| (1 / 20) (4 / 5) =
      some (15697757024450 / 32232457156) := by
    rw [habs2]
    norm_num [solvePowerNobs, npPpf, cxLib, max_def]
  have hc2 : ⌈(15697757024450 / 32232457156 : ℚ)⌉ = 488 := by
    rw [Int.ceil_eq_iff]
    constructor <;> norm_num
  refine ⟨fun x _ y _ h => cxLib_asin_strictMono h,
    cxLib_ppf_monotone.monotoneOn _, ?_,
    by norm_num [cxLib, max_def], ?_, ?_, by norm_num⟩
  · rw [abs_neg, abs_of_pos (show (0 : ℚ) < 1 / 20 by norm_num),
      abs_of_pos (show (0 : ℚ) < 3 / 50 by norm_num)]
    norm_num
  · simp only [calculateSampleSize, hes1, hN1,
      if_neg (show ¬(9 / 10 : ℚ) = 0 by norm_num), hc1]
    norm_num
  · simp only [calculateSampleSize, hes2, hN2,
      if_neg (show ¬(9 / 10 : ℚ) = 0 by norm_num), hc2]
    norm_num

lemma runZTest_ok {L : StatsLib} {n nt cc ct : ℕ} {a : ℚ}
    (hn : n ≠ 0) (hnt : nt ≠ 0) (hrc : ((cc : ℚ) / (n : ℚ)) ≠ 0) :
    ∃ zr, runZTest L n nt cc ct a = .ok zr ∧
      zr.achieved_power =
        (proportionEffectsize L ((cc : ℚ) / (n : ℚ))
            ((ct : ℚ) / (nt : ℚ))).bind
          fun es => solvePowerPower L |es| ((n : ℕ) : ℚ) a := by
  simp only [runZTest, if_neg hn, if_neg hnt, if_neg hrc]
  exact ⟨_, rfl, rfl⟩

/-- Claim C2: cross-component power consistency.  For a valid power spec,
both `calculate_sample_size` and `run_z_test` use the same effect-size
function (`proportion_effectsize`) and the same normal-power equation:
feeding `run_z_test` counts whose exact rates equal the spec's rates and
`n_control = n_per_group` reproduces the target power as `achieved_power`,
exactly at the un-ceiled solution and within the ceiling slack (at most
one extra sample) at the returned integer `n_per_group`:
`p ≤ achieved_power ≤ power(N + 1)`. -/
theorem power_consistency_forward_backward (L : StatsLib)
    (hcdf : Monotone L.cdfQ)
    (hsqrt : MonotoneOn L.sqrtQ (Set.Ici (0 : ℚ)))
    (b m a p es : ℚ) (res : SampleSizeResult)
    (hb : 0 < b)
    (hes : proportionEffectsize L b (b + m) = some es)
    (hcs : calculateSampleSize L b m a p = .ok res)
    (hsum : 0 < L.ppfQ (1 - a / 2) + L.ppfQ p)
    (hsq : L.sqrtQ (((L.ppfQ (1 - a / 2) + L.ppfQ p) / |es|) ^ 2) =
      (L.ppfQ (1 - a / 2) + L.ppfQ p) / |es|)
    (hinv : L.cdfQ (L.ppfQ p) = p)
    (n nt cc ct : ℕ)
    (hn : (n : ℤ) = res.nPerGroup)
    (hcc : (cc : ℚ) = b * (n : ℚ))
    (hct : (ct : ℚ) = (b + m) * (nt : ℚ))
    (hnt : nt ≠ 0) :
    ∃ N pow zr,
      solvePowerNobs L |es| a p = some N ∧
      runZTest L n nt cc ct a = .ok zr ∧
      zr.achieved_power = some pow ∧
      L.cdfQ (|es| * L.sqrtQ (N / 2) - L.ppfQ (1 - a / 2)) = p ∧
      p ≤ pow ∧
      pow ≤ L.cdfQ (|es| * L.sqrtQ ((N + 1) / 2) - L.ppfQ (1 - a / 2)) := by
  obtain ⟨es', N, hes', hN, hbne, hr⟩ := calculateSampleSize_ok hcs
  have hee : es' = es := Option.some.inj (hes'.symm.trans hes)
  rw [hee] at hN hr
  obtain ⟨hda, hdp, hne, hNval⟩ := solvePowerNobs_some hN
  have hespos : 0 < |es| := lt_of_le_of_ne (abs_nonneg es) (Ne.symm hne)
  have hratio : 0 < (L.ppfQ (1 - a / 2) + L.ppfQ p) / |es| :=
    div_pos hsum hespos
  have hNpos : 0 < N := by
    rw [hNval]
    exact mul_pos (by norm_num) (pow_pos hratio 2)
  subst hr
  dsimp only at hn
  have hnq : ((n : ℕ) : ℚ) = ((⌈N⌉ : ℤ) : ℚ) := by exact_mod_cast hn
  have hnn : n ≠ 0 := by
    intro h0
    rw [h0] at hn
    have := Int.ceil_pos.mpr hNpos
    omega
  have hnQ : ((n : ℕ) : ℚ) ≠ 0 := Nat.cast_ne_zero.mpr hnn
  have hntQ : ((nt : ℕ) : ℚ) ≠ 0 := Nat.cast_ne_zero.mpr hnt
  have hrc : ((cc : ℚ) / (n : ℚ)) = b := by
    rw [hcc]
    field_simp
  have hrt : ((ct : ℚ) / (nt : ℚ)) = b + m := by
    rw [hct]
    field_simp
  have hrcne : ((cc : ℚ) / (n : ℚ)) ≠ 0 := by
    rw [hrc]
    exact ne_of_gt hb
  obtain ⟨zr, hzr, hap⟩ := runZTest_ok hnn hnt hrcne
  rw [hrc, hrt, hes, Option.some_bind] at hap
  have hppf' : npPpf L (1 - a / 2) = some (L.ppfQ (1 - a / 2)) := by
    unfold npPpf
    rw [if_pos hda]
  have hsq' : npSqrt L (((n : ℕ) : ℚ) / 2) =
      some (L.sqrtQ (((n : ℕ) : ℚ) / 2)) := by
    unfold npSqrt
    rw [if_pos (by positivity)]
  rw [solvePowerPower, hppf', Option.some_bind, hsq'] at hap
  simp only [Option.map_some'] at hap
  have harg : |es| * L.sqrtQ (N / 2) - L.ppfQ (1 - a / 2) = L.ppfQ p := by
    have h2 : N / 2 = ((L.ppfQ (1 - a / 2) + L.ppfQ p) / |es|) ^ 2 := by
      rw [hNval]
      ring
    rw [h2, hsq]
    field_simp
  have hinv1 : L.cdfQ (|es| * L.sqrtQ (N / 2) - L.ppfQ (1 - a / 2)) = p := by
    rw [harg, hinv]
  have hle : N ≤ ((n : ℕ) : ℚ) := by
    rw [hnq]
    exact Int.le_ceil N
  have hlt : ((n : ℕ) : ℚ) ≤ N + 1 := by
    rw [hnq]
    exact (Int.ceil_lt_add_one N).le
  have hmemN : N / 2 ∈ Set.Ici (0 : ℚ) := by
    simp only [Set.mem_Ici]
    positivity
  have hmemn : ((n : ℕ) : ℚ) / 2 ∈ Set.Ici (0 : ℚ) := by
    simp only [Set.mem_Ici]
    positivity
  have hmemN1 : (N + 1) / 2 ∈ Set.Ici (0 : ℚ) := by
    simp only [Set.mem_Ici]
    positivity
  have hchain1 : L.sqrtQ (N / 2) ≤ L.sqrtQ (((n : ℕ) : ℚ) / 2) :=
    hsqrt hmemN hmemn (by linarith)
  have hchain2 : L.sqrtQ (((n : ℕ) : ℚ) / 2) ≤ L.sqrtQ ((N + 1) / 2) :=
    hsqrt hmemn hmemN1 (by linarith)
  refine ⟨N, L.cdfQ (|es| * L.sqrtQ (((n : ℕ) : ℚ) / 2) - L.ppfQ (1 - a / 2)),
    zr, hN, hzr, hap, hinv1, ?_, ?_⟩
  · calc p = L.cdfQ (|es| * L.sqrtQ (N / 2) - L.ppfQ (1 - a / 2)) :=
        hinv1.symm
    _ ≤ L.cdfQ (|es| * L.sqrtQ (((n : ℕ) : ℚ) / 2) - L.ppfQ (1 - a / 2)) := by
        apply hcdf
        have := mul_le_mul_of_nonneg_left hchain1 (abs_nonneg es)
        linarith
  · apply hcdf
    have := mul_le_mul_of_nonneg_left hchain2 (abs_nonneg es)
    linarith

/-- Claim C2 witness: on the concrete stand-in library `halfLib` with the
spec (baseline 1/4, mde 1/2, alpha 1/2, power 1/4), the solver returns
`n_per_group = 8` and `run_z_test(8, 8, 2, 6, 1/2)` (exact rates 1/4 and
3/4) achieves exactly the target power 1/4. -/
theorem power_consistency_forward_backward_witness :
    ∃ N pow zr,
      solvePowerNobs halfLib |(-(1 / 2) : ℚ)| (1 / 2) (1 / 4) = some N ∧
      runZTest halfLib 8 8 2 6 (1 / 2) = .ok zr ∧
      zr.achieved_power = some pow ∧
      halfLib.cdfQ (|(-(1 / 2) : ℚ)| * halfLib.sqrtQ (N / 2) -
        halfLib.ppfQ (1 - (1 / 2) / 2)) = 1 / 4 ∧
      (1 / 4 : ℚ) ≤ pow ∧
      pow ≤ halfLib.cdfQ (|(-(1 / 2) : ℚ)| * halfLib.sqrtQ ((N + 1) / 2) -
        halfLib.ppfQ (1 - (1 / 2) / 2)) := by
  have habs : |(-(1 / 2) : ℚ)| = 1 / 2 := by
    rw [abs_neg]
    exact abs_of_pos (by norm_num)
  have hes : proportionEffectsize halfLib (1 / 4) (1 / 4 + 1 / 2) =
      some (-(1 / 2)) := by
    norm_num [proportionEffectsize, npSqrt, npAsin, halfLib]
  have hN : solvePowerNobs halfLib |(-(1 / 2) : ℚ)| (1 / 2) (1 / 4) =
      some 8 := by
    rw [habs]
    norm_num [solvePowerNobs, npPpf, halfLib]
  have hc8 : ⌈(8 : ℚ)⌉ = 8 := by
    rw [Int.ceil_eq_iff]
    constructor <;> norm_num
  have hcs : calculateSampleSize halfLib (1 / 4) (1 / 2) (1 / 2) (1 / 4) =
      .ok ⟨8, 16, 1 / 4, 3 / 4, 1 / 2, 2, -(1 / 2), 1 / 2, 1 / 4⟩ := by
    simp only [calculateSampleSize, hes, hN,
      if_neg (show ¬(1 / 4 : ℚ) = 0 by norm_num), hc8]
    norm_num
  exact power_consistency_forward_backward halfLib (fun x y h => h)
    (fun x _ y _ h => by dsimp only [halfLib]; linarith)
    (1 / 4) (1 / 2) (1 / 2) (1 / 4) (-(1 / 2))
    ⟨8, 16, 1 / 4, 3 / 4, 1 / 2, 2, -(1 / 2), 1 / 2, 1 / 4⟩
    (by norm_num) hes hcs (by norm_num [halfLib])
    (by rw [habs]; norm_num [halfLib]) (by norm_num [halfLib])
    8 8 2 6 (by norm_num) (by norm_num) (by norm_num) (by norm_num)
